import Mathlib

/-!
Verification of the predikon prediction engine against its specification.

The core library (region embedding, weighted-averaging baseline, Gaussian
and logistic sub-SVD models, aggregate calculator) is modelled from the
specification; the example notebook's pipeline constants are embedded from
`notebooks/example.ipynb`.  Real-valued data is modelled over `ℝ`; a
partially-observed vector carries `Option ℝ` entries, `none` meaning
unobserved.
-/

open Finset Matrix

/-- Modelled from the spec: the error taxonomy of §7 for the prediction
engine (the library source is not in the snapshot). -/
inductive PredikonError : Type
  | invalidDimension
  | emptyObservationSet
  | numericalInstability
  | convergenceFailure
  deriving DecidableEq

/-- Modelled from the spec: a PartialObservationVector — a length-R vector
where a subset of indices carry a value ("observed") and the rest are
explicitly unobserved, encoded with an option per entry (§3, §9). -/
def ObsVec (R : ℕ) : Type := Fin R → Option ℝ

/-- The set of observed indices of a partially-observed vector. -/
def obsSet {R : ℕ} (p : ObsVec R) : Finset (Fin R) :=
  Finset.univ.filter (fun i => (p i).isSome)

/-- Every observed value of the vector lies in `[0,1]` (§3 data model:
observed entries carry a value in `[0,1]`). -/
def obsInUnit {R : ℕ} (p : ObsVec R) : Prop :=
  ∀ i : Fin R, ∀ v : ℝ, p i = some v → 0 ≤ v ∧ v ≤ 1

/-- All weights are strictly positive (§3 data model invariant). -/
def posWeights {R : ℕ} (w : Fin R → ℝ) : Prop := ∀ i : Fin R, 0 < w i

/-- Hard clamp of a real into `[0,1]`, no rescaling (§4.3 step 4). -/
noncomputable def clamp01 (x : ℝ) : ℝ := max 0 (min 1 x)

namespace WeightedAveraging

/-- Modelled from the spec: the weighted mean of the observed entries,
`Σ_{i∈obs} weights[i]·partial[i] / Σ_{i∈obs} weights[i]` (§4.2). -/
noncomputable def weightedMean {R : ℕ} (w : Fin R → ℝ) (p : ObsVec R) : ℝ :=
  (∑ i in obsSet p, w i * (p i).getD 0) / (∑ i in obsSet p, w i)

/-- Modelled from the spec: the WeightedAveraging baseline `predict`
(§4.2) — fails with `EmptyObservationSet` when no entry is observed,
otherwise copies observed entries and fills every unobserved entry with
the weighted mean of the observed ones. -/
noncomputable def fit_predict {R : ℕ} (w : Fin R → ℝ) (p : ObsVec R) :
    Except PredikonError (Fin R → ℝ) :=
  if obsSet p = ∅ then .error .emptyObservationSet
  else .ok (fun i => (p i).getD (weightedMean w p))

end WeightedAveraging

/-- Modelled from the spec: the pure aggregate reduction
`Σ weights[i]·full[i] / Σ weights[i]` (§4.5). -/
noncomputable def aggregate {R : ℕ} (full w : Fin R → ℝ) : ℝ :=
  (∑ i, w i * full i) / (∑ i, w i)

/-- The notebook's aggregation expression
`1/np.sum(weights) * np.sum(weights.dot(pred))` (example.ipynb, evaluation
cell): the reciprocal of the total weight times the dot product of weights
with the predicted vector. -/
noncomputable def notebookAggregate {R : ℕ} (w pred : Fin R → ℝ) : ℝ :=
  1 / (∑ i, w i) * (∑ i, w i * pred i)

/-- The Gram matrix of the rows of the embedding `U` restricted to an
index set `s`: entry `(j,k)` is `Σ_{i∈s} U[i,j]·U[i,k]`, i.e.
`Uᵒᵇˢᵗ·Uᵒᵇˢ` of §4.3 step 2. -/
def gram {R d : ℕ} (U : Matrix (Fin R) (Fin d) ℝ) (s : Finset (Fin R)) :
    Matrix (Fin d) (Fin d) ℝ :=
  Matrix.of fun j k => ∑ i in s, U i j * U i k

/-- The regularized normal-equation matrix `Uᵒᵇˢᵗ·Uᵒᵇˢ + l2·I` (§4.3). -/
noncomputable def ridgeMat {R d : ℕ} (U : Matrix (Fin R) (Fin d) ℝ)
    (s : Finset (Fin R)) (l2 : ℝ) : Matrix (Fin d) (Fin d) ℝ :=
  gram U s + l2 • (1 : Matrix (Fin d) (Fin d) ℝ)

/-- The right-hand side `Uᵒᵇˢᵗ·yᵒᵇˢ` of the normal equations (§4.3). -/
def obsMoment {R d : ℕ} (U : Matrix (Fin R) (Fin d) ℝ) (p : ObsVec R) :
    Fin d → ℝ :=
  fun j => ∑ i in obsSet p, U i j * (p i).getD 0

/-- The residual-plus-penalty objective of §4.3 step 2:
`Σ_{i∈obs} (U[i]·w − y[i])² + l2·‖w‖²`. -/
noncomputable def ridgeLoss {R d : ℕ} (U : Matrix (Fin R) (Fin d) ℝ)
    (p : ObsVec R) (l2 : ℝ) (w : Fin d → ℝ) : ℝ :=
  (∑ i in obsSet p, ((∑ j, U i j * w j) - (p i).getD 0) ^ 2) +
    l2 * ∑ j, w j ^ 2

namespace GaussianSubSVD

/-- Modelled from the spec: the closed-form ridge coefficients
`w = (Uᵒᵇˢᵗ·Uᵒᵇˢ + l2·I)⁻¹ · Uᵒᵇˢᵗ·yᵒᵇˢ` (§4.3 step 2). -/
noncomputable def coef {R d : ℕ} (U : Matrix (Fin R) (Fin d) ℝ) (l2 : ℝ)
    (p : ObsVec R) : Fin d → ℝ :=
  (ridgeMat U (obsSet p) l2)⁻¹ *ᵥ obsMoment U p

/-- Modelled from the spec: GaussianSubSVD `fit_predict` (§4.3) — fails
with `EmptyObservationSet` on an empty observed set, with
`NumericalInstability` when the normal-equation matrix is singular;
otherwise reconstructs `U[i]·w`, overwrites observed indices with their
observed values, and hard-clamps every entry into `[0,1]`. -/
noncomputable def fit_predict {R d : ℕ} (U : Matrix (Fin R) (Fin d) ℝ)
    (l2 : ℝ) (p : ObsVec R) : Except PredikonError (Fin R → ℝ) :=
  if obsSet p = ∅ then .error .emptyObservationSet
  else if (ridgeMat U (obsSet p) l2).det = 0 then .error .numericalInstability
  else .ok (fun i => clamp01 ((p i).getD (∑ j, U i j * coef U l2 p j)))

end GaussianSubSVD

/-- The logistic link `sigmoid(x) = 1/(1+exp(−x))` (§4.4). -/
noncomputable def sigmoid (x : ℝ) : ℝ := 1 / (1 + Real.exp (-x))

namespace LogisticSubSVD

/-- Modelled from the spec: the penalized cross-entropy objective of §4.4
between observed proportions and `sigmoid(U[i]·w)`. -/
noncomputable def logLoss {R d : ℕ} (U : Matrix (Fin R) (Fin d) ℝ)
    (p : ObsVec R) (l2 : ℝ) (w : Fin d → ℝ) : ℝ :=
  (∑ i in obsSet p,
      -((p i).getD 0 * Real.log (sigmoid (∑ j, U i j * w j)) +
        (1 - (p i).getD 0) * Real.log (1 - sigmoid (∑ j, U i j * w j)))) +
    l2 * ∑ j, w j ^ 2

/-- Gradient of `logLoss` in the coefficients, used by the iterative
solver (§4.4: gradient-based solve). -/
noncomputable def logGrad {R d : ℕ} (U : Matrix (Fin R) (Fin d) ℝ)
    (p : ObsVec R) (l2 : ℝ) (w : Fin d → ℝ) : Fin d → ℝ :=
  fun j =>
    (∑ i in obsSet p, (sigmoid (∑ k, U i k * w k) - (p i).getD 0) * U i j) +
      2 * l2 * w j

/-- Fixed solver configuration: step size of the gradient iteration. -/
noncomputable def solverRate : ℝ := 1 / 100

/-- Fixed solver configuration: loss-improvement stopping tolerance. -/
noncomputable def solverTol : ℝ := 1 / 10 ^ 8

/-- Fixed solver configuration: the iteration cap bounding the solve. -/
def solverCap : ℕ := 1000

/-- Modelled from the spec: the bounded gradient iteration of §4.4 —
take a gradient step, stop early once the loss improvement falls below
the fixed tolerance, and never exceed the remaining iteration budget. -/
noncomputable def iterate {R d : ℕ} (U : Matrix (Fin R) (Fin d) ℝ)
    (p : ObsVec R) (l2 : ℝ) : ℕ → (Fin d → ℝ) → (Fin d → ℝ)
  | 0, w => w
  | Nat.succ k, w =>
    let wn : Fin d → ℝ := fun j => w j - solverRate * logGrad U p l2 w j
    if logLoss U p l2 w - logLoss U p l2 wn < solverTol then wn
    else iterate U p l2 k wn

/-- Modelled from the spec: the iterative logistic solve, started from the
fixed deterministic zero vector and bounded by the iteration cap (§4.4). -/
noncomputable def solve {R d : ℕ} (U : Matrix (Fin R) (Fin d) ℝ) (l2 : ℝ)
    (p : ObsVec R) : Fin d → ℝ :=
  iterate U p l2 solverCap (fun _ => 0)

/-- Modelled from the spec: LogisticSubSVD `fit_predict` (§4.4) — fails
with `EmptyObservationSet` on an empty observed set; otherwise
reconstructs `sigmoid(U[i]·w)` at unobserved indices (no clamping) and
passes observed indices through exactly. -/
noncomputable def fit_predict {R d : ℕ} (U : Matrix (Fin R) (Fin d) ℝ)
    (l2 : ℝ) (p : ObsVec R) : Except PredikonError (Fin R → ℝ) :=
  if obsSet p = ∅ then .error .emptyObservationSet
  else .ok (fun i => (p i).getD (sigmoid (∑ j, U i j * solve U l2 p j)))

end LogisticSubSVD

namespace ExamplePipeline

/-- Number of regions in the example notebook (`R, V = Y.shape` prints
`Number of regions: 217`). -/
def exR : ℕ := 217

/-- The notebook's observation count `n = int(np.ceil(R * p))` with
`p = 0.1` (example.ipynb, "Set Observations" cell). -/
def exN : ℕ := ⌈(exR : ℚ) * (1 / 10)⌉₊

/-- The notebook's observed index set `obs = inds[:n]`: the first `exN`
entries of a random permutation `inds` of the regions. -/
def exObs (inds : Equiv.Perm (Fin 217)) : Finset (Fin 217) :=
  (((List.finRange 217).map (fun i => inds i)).take exN).toFinset

/-- The notebook's `ynew`: unobserved everywhere except at the sampled
indices `obs`, where the held-out results `y` are copied
(`ynew = np.array([np.nan] * R); ynew[obs] = y[obs]`), rendered with the
option-per-entry representation. -/
noncomputable def ynew (inds : Equiv.Perm (Fin 217)) (y : Fin 217 → ℝ) :
    ObsVec 217 :=
  fun i => if i ∈ exObs inds then some (y i) else none

end ExamplePipeline

/-- The weight vector `[2, 3, 5]` of the spec's baseline-arithmetic
property (§8). -/
noncomputable def specW : Fin 3 → ℝ :=
  fun i => if i = 0 then 2 else if i = 1 then 3 else 5

/-- The partially-observed vector `[0.4, unobserved, 0.6]` of the spec's
baseline-arithmetic property (§8). -/
noncomputable def specP : ObsVec 3 :=
  fun i => if i = 0 then some (2 / 5) else if i = 2 then some (3 / 5) else none

/-- A one-region, one-dimension embedding used to instantiate the models
on concrete inputs. -/
def oneU : Matrix (Fin 1) (Fin 1) ℝ := Matrix.of fun _ _ => 1

/-- A fully-observed one-region vector with value `1/2`. -/
noncomputable def oneP : ObsVec 1 := fun _ => some (1 / 2)

/-- A one-region weight vector. -/
def oneW : Fin 1 → ℝ := fun _ => 1

/-- An everywhere-unobserved one-region vector. -/
def noneP : ObsVec 1 := fun _ => none

section Helpers

variable {R d : ℕ}

theorem mem_obsSet {p : ObsVec R} {i : Fin R} :
    i ∈ obsSet p ↔ (p i).isSome := by
  simp [obsSet]

theorem obsSet_some {p : ObsVec R} {i : Fin R} (h : i ∈ obsSet p) :
    p i = some ((p i).getD 0) := by
  rcases Option.isSome_iff_exists.mp (mem_obsSet.mp h) with ⟨v, hv⟩
  simp [hv]

theorem obsSet_getD_mem {p : ObsVec R} (hu : obsInUnit p) {i : Fin R}
    (h : i ∈ obsSet p) : 0 ≤ (p i).getD 0 ∧ (p i).getD 0 ≤ 1 :=
  hu i _ (obsSet_some h)

theorem clamp01_nonneg (x : ℝ) : 0 ≤ clamp01 x := le_max_left 0 _

theorem clamp01_le_one (x : ℝ) : clamp01 x ≤ 1 :=
  max_le (by norm_num) (min_le_left 1 x)

theorem clamp01_of_mem {x : ℝ} (h0 : 0 ≤ x) (h1 : x ≤ 1) : clamp01 x = x := by
  rw [clamp01, min_eq_right h1, max_eq_right h0]

theorem sigmoid_pos (x : ℝ) : 0 < sigmoid x := by
  rw [sigmoid]
  positivity

theorem sigmoid_le_one (x : ℝ) : sigmoid x ≤ 1 := by
  rw [sigmoid, div_le_one (by positivity)]
  linarith [Real.exp_pos (-x)]

theorem weightedMean_mem {w : Fin R → ℝ} {p : ObsVec R} (hw : posWeights w)
    (hu : obsInUnit p) (hne : obsSet p ≠ ∅) :
    0 ≤ WeightedAveraging.weightedMean w p ∧
      WeightedAveraging.weightedMean w p ≤ 1 := by
  have hpos : 0 < ∑ i in obsSet p, w i :=
    Finset.sum_pos (fun i _ => hw i) (Finset.nonempty_iff_ne_empty.mpr hne)
  have hnum : 0 ≤ ∑ i in obsSet p, w i * (p i).getD 0 :=
    Finset.sum_nonneg fun i hi =>
      mul_nonneg (hw i).le (obsSet_getD_mem hu hi).1
  have hle : (∑ i in obsSet p, w i * (p i).getD 0) ≤ ∑ i in obsSet p, w i :=
    Finset.sum_le_sum fun i hi => by
      have h1 := (obsSet_getD_mem hu hi).2
      nlinarith [hw i]
  exact ⟨div_nonneg hnum hpos.le, (div_le_one hpos).mpr hle⟩

end Helpers

section RidgeAlgebra

variable {R d : ℕ}

theorem gram_mulVec_apply (U : Matrix (Fin R) (Fin d) ℝ) (s : Finset (Fin R))
    (x : Fin d → ℝ) (j : Fin d) :
    (gram U s *ᵥ x) j = ∑ i in s, U i j * ∑ k, U i k * x k := by
  simp only [Matrix.mulVec, dotProduct, gram, Matrix.of_apply]
  simp only [Finset.sum_mul]
  rw [Finset.sum_comm]
  refine Finset.sum_congr rfl fun i _ => ?_
  rw [Finset.mul_sum]
  exact Finset.sum_congr rfl fun k _ => by ring

theorem quadGram (U : Matrix (Fin R) (Fin d) ℝ) (s : Finset (Fin R))
    (x : Fin d → ℝ) :
    x ⬝ᵥ (gram U s *ᵥ x) = ∑ i in s, (∑ j, U i j * x j) ^ 2 := by
  calc x ⬝ᵥ (gram U s *ᵥ x)
      = ∑ j, x j * ∑ i in s, U i j * ∑ k, U i k * x k := by
        refine Finset.sum_congr rfl fun j _ => ?_
        rw [gram_mulVec_apply]
    _ = ∑ j, ∑ i in s, x j * (U i j * ∑ k, U i k * x k) := by
        exact Finset.sum_congr rfl fun j _ => Finset.mul_sum _ _ _
    _ = ∑ i in s, ∑ j, x j * (U i j * ∑ k, U i k * x k) := Finset.sum_comm
    _ = ∑ i in s, (∑ j, U i j * x j) ^ 2 := by
        refine Finset.sum_congr rfl fun i _ => ?_
        have h : (∑ j, U i j * x j) ^ 2
            = ∑ j, x j * (U i j * ∑ k, U i k * x k) := by
          rw [sq, Finset.sum_mul]
          exact Finset.sum_congr rfl fun j _ => by ring
        exact h.symm

theorem moment_dot (U : Matrix (Fin R) (Fin d) ℝ) (p : ObsVec R)
    (wv : Fin d → ℝ) :
    obsMoment U p ⬝ᵥ wv =
      ∑ i in obsSet p, (p i).getD 0 * ∑ j, U i j * wv j := by
  simp only [dotProduct, obsMoment]
  simp only [Finset.sum_mul]
  rw [Finset.sum_comm]
  refine Finset.sum_congr rfl fun i _ => ?_
  rw [Finset.mul_sum]
  exact Finset.sum_congr rfl fun j _ => by ring

theorem quadRidge (U : Matrix (Fin R) (Fin d) ℝ) (s : Finset (Fin R))
    (l2 : ℝ) (x : Fin d → ℝ) :
    x ⬝ᵥ (ridgeMat U s l2 *ᵥ x) =
      (∑ i in s, (∑ j, U i j * x j) ^ 2) + l2 * ∑ j, x j ^ 2 := by
  rw [ridgeMat, Matrix.add_mulVec, dotProduct_add, quadGram]
  congr 1
  rw [Matrix.smul_mulVec_assoc, Matrix.one_mulVec, dotProduct_smul]
  simp only [smul_eq_mul, dotProduct]
  congr 1
  exact Finset.sum_congr rfl fun j _ => (sq (x j)).symm ▸ by ring

theorem quadRidge_nonneg (U : Matrix (Fin R) (Fin d) ℝ) (s : Finset (Fin R))
    {l2 : ℝ} (hl2 : 0 ≤ l2) (x : Fin d → ℝ) :
    0 ≤ x ⬝ᵥ (ridgeMat U s l2 *ᵥ x) := by
  rw [quadRidge]
  have h1 : 0 ≤ ∑ i in s, (∑ j, U i j * x j) ^ 2 :=
    Finset.sum_nonneg fun i _ => sq_nonneg _
  have h2 : 0 ≤ ∑ j, x j ^ 2 := Finset.sum_nonneg fun j _ => sq_nonneg _
  nlinarith

theorem ridgeMat_transpose (U : Matrix (Fin R) (Fin d) ℝ)
    (s : Finset (Fin R)) (l2 : ℝ) : (ridgeMat U s l2)ᵀ = ridgeMat U s l2 := by
  rw [ridgeMat, Matrix.transpose_add, Matrix.transpose_smul,
    Matrix.transpose_one]
  congr 1
  ext j k
  simp only [Matrix.transpose_apply, gram, Matrix.of_apply]
  exact Finset.sum_congr rfl fun i _ => mul_comm _ _

theorem ridgeMat_isHermitian (U : Matrix (Fin R) (Fin d) ℝ)
    (s : Finset (Fin R)) (l2 : ℝ) : (ridgeMat U s l2).IsHermitian := by
  show (ridgeMat U s l2)ᴴ = ridgeMat U s l2
  rw [Matrix.conjTranspose_eq_transpose_of_trivial]
  exact ridgeMat_transpose U s l2

theorem ridgeMat_posDef (U : Matrix (Fin R) (Fin d) ℝ) (s : Finset (Fin R))
    {l2 : ℝ} (hl2 : 0 < l2) : (ridgeMat U s l2).PosDef := by
  refine ⟨ridgeMat_isHermitian U s l2, fun x hx => ?_⟩
  have hsx : star x = x := funext fun i => star_trivial _
  rw [hsx, quadRidge]
  have h1 : 0 ≤ ∑ i in s, (∑ j, U i j * x j) ^ 2 :=
    Finset.sum_nonneg fun i _ => sq_nonneg _
  have h2 : 0 < ∑ j, x j ^ 2 := by
    obtain ⟨j, hj⟩ : ∃ j, x j ≠ 0 := by
      by_contra h
      push_neg at h
      exact hx (funext h)
    exact Finset.sum_pos' (fun k _ => sq_nonneg _)
      ⟨j, Finset.mem_univ j, by positivity⟩
  nlinarith

theorem ridgeMat_det_ne (U : Matrix (Fin R) (Fin d) ℝ) (s : Finset (Fin R))
    {l2 : ℝ} (hl2 : 0 < l2) : (ridgeMat U s l2).det ≠ 0 :=
  (Matrix.PosDef.det_pos (ridgeMat_posDef U s hl2)).ne'

theorem ridge_normal_eq (U : Matrix (Fin R) (Fin d) ℝ) (p : ObsVec R)
    {l2 : ℝ} (hl2 : 0 < l2) :
    ridgeMat U (obsSet p) l2 *ᵥ GaussianSubSVD.coef U l2 p = obsMoment U p := by
  rw [GaussianSubSVD.coef, Matrix.mulVec_mulVec,
    Matrix.mul_nonsing_inv _
      (isUnit_iff_ne_zero.mpr (ridgeMat_det_ne U (obsSet p) hl2)),
    Matrix.one_mulVec]

theorem symm_mulVec_dot {M : Matrix (Fin d) (Fin d) ℝ} (hM : Mᵀ = M)
    (u v : Fin d → ℝ) : (M *ᵥ u) ⬝ᵥ v = u ⬝ᵥ (M *ᵥ v) := by
  rw [dotProduct_comm, dotProduct_mulVec, ← Matrix.mulVec_transpose, hM]
  exact dotProduct_comm _ _

theorem ridgeLoss_eq (U : Matrix (Fin R) (Fin d) ℝ) (p : ObsVec R) (l2 : ℝ)
    (wv : Fin d → ℝ) :
    ridgeLoss U p l2 wv =
      wv ⬝ᵥ (ridgeMat U (obsSet p) l2 *ᵥ wv) - 2 * (obsMoment U p ⬝ᵥ wv) +
        ∑ i in obsSet p, ((p i).getD 0) ^ 2 := by
  rw [ridgeLoss, quadRidge, moment_dot]
  have h : ∀ i ∈ obsSet p,
      ((∑ j, U i j * wv j) - (p i).getD 0) ^ 2 =
        (∑ j, U i j * wv j) ^ 2 -
          2 * ((p i).getD 0 * ∑ j, U i j * wv j) + ((p i).getD 0) ^ 2 :=
    fun i _ => by ring
  rw [Finset.sum_congr rfl h, Finset.sum_add_distrib, Finset.sum_sub_distrib,
    ← Finset.mul_sum]
  ring

theorem ridge_min (U : Matrix (Fin R) (Fin d) ℝ) (p : ObsVec R) {l2 : ℝ}
    (hl2 : 0 < l2) (wv : Fin d → ℝ) :
    ridgeLoss U p l2 (GaussianSubSVD.coef U l2 p) ≤ ridgeLoss U p l2 wv := by
  set M := ridgeMat U (obsSet p) l2 with hMdef
  set ws := GaussianSubSVD.coef U l2 p with hws
  have hsym : Mᵀ = M := ridgeMat_transpose U (obsSet p) l2
  have hnorm : M *ᵥ ws = obsMoment U p := ridge_normal_eq U p hl2
  have h1 : obsMoment U p ⬝ᵥ wv = ws ⬝ᵥ (M *ᵥ wv) := by
    rw [← hnorm]
    exact symm_mulVec_dot hsym ws wv
  have h2 : obsMoment U p ⬝ᵥ ws = ws ⬝ᵥ (M *ᵥ ws) := by
    rw [← hnorm]
    exact symm_mulVec_dot hsym ws ws
  have h3 : wv ⬝ᵥ (M *ᵥ ws) = ws ⬝ᵥ (M *ᵥ wv) :=
    (dotProduct_comm _ _).trans (symm_mulVec_dot hsym ws wv)
  have hq : 0 ≤ (wv - ws) ⬝ᵥ (M *ᵥ (wv - ws)) :=
    quadRidge_nonneg U (obsSet p) hl2.le _
  have hexpand : (wv - ws) ⬝ᵥ (M *ᵥ (wv - ws)) =
      wv ⬝ᵥ (M *ᵥ wv) - 2 * (ws ⬝ᵥ (M *ᵥ wv)) + ws ⬝ᵥ (M *ᵥ ws) := by
    rw [Matrix.mulVec_sub, sub_dotProduct, dotProduct_sub, dotProduct_sub, h3]
    ring
  rw [ridgeLoss_eq, ridgeLoss_eq, h1, h2]
  linarith [hq, hexpand]

theorem coef_sq_mono (U : Matrix (Fin R) (Fin d) ℝ) (p : ObsVec R)
    {l2 l2' : ℝ} (hl2 : 0 < l2) (hle : l2 ≤ l2') :
    (∑ j, GaussianSubSVD.coef U l2' p j ^ 2) ≤
      ∑ j, GaussianSubSVD.coef U l2 p j ^ 2 := by
  rcases eq_or_lt_of_le hle with heq | hlt
  · rw [heq]
  · have hl2' : 0 < l2' := hl2.trans hlt
    have m1 := ridge_min U p hl2 (GaussianSubSVD.coef U l2' p)
    have m2 := ridge_min U p hl2' (GaussianSubSVD.coef U l2 p)
    rw [ridgeLoss, ridgeLoss] at m1 m2
    have key : (l2' - l2) * (∑ j, GaussianSubSVD.coef U l2' p j ^ 2) ≤
        (l2' - l2) * (∑ j, GaussianSubSVD.coef U l2 p j ^ 2) := by linarith
    exact (mul_le_mul_left (sub_pos.mpr hlt)).mp key

end RidgeAlgebra

section ModelHelpers

variable {R d : ℕ}

theorem baseline_spec (w : Fin R → ℝ) (p : ObsVec R) (hne : obsSet p ≠ ∅) :
    WeightedAveraging.fit_predict w p =
      Except.ok (fun i => (p i).getD (WeightedAveraging.weightedMean w p)) := by
  rw [WeightedAveraging.fit_predict, if_neg hne]

theorem gaussian_spec (U : Matrix (Fin R) (Fin d) ℝ) (p : ObsVec R) {l2 : ℝ}
    (hne : obsSet p ≠ ∅) (hl2 : 0 < l2) :
    GaussianSubSVD.fit_predict U l2 p =
      Except.ok (fun i =>
        clamp01 ((p i).getD (∑ j, U i j * GaussianSubSVD.coef U l2 p j))) := by
  rw [GaussianSubSVD.fit_predict, if_neg hne,
    if_neg (ridgeMat_det_ne U (obsSet p) hl2)]

theorem logistic_spec (U : Matrix (Fin R) (Fin d) ℝ) (l2 : ℝ) (p : ObsVec R)
    (hne : obsSet p ≠ ∅) :
    LogisticSubSVD.fit_predict U l2 p =
      Except.ok (fun i =>
        (p i).getD (sigmoid (∑ j, U i j * LogisticSubSVD.solve U l2 p j))) := by
  rw [LogisticSubSVD.fit_predict, if_neg hne]

theorem pass_to_full {p : ObsVec R} {pred : Fin R → ℝ}
    (hpass : ∀ i v, p i = some v → pred i = v) (hall : ∀ i, (p i).isSome) :
    ∀ i, pred i = (p i).getD 0 := fun i =>
  hpass i _ (obsSet_some (mem_obsSet.mpr (hall i)))

theorem baseline_ok_bounds {w : Fin R → ℝ} {p : ObsVec R} (hw : posWeights w)
    (hu : obsInUnit p) (hne : obsSet p ≠ ∅) :
    ∃ pred, WeightedAveraging.fit_predict w p = Except.ok pred ∧
      ∀ i, 0 ≤ pred i ∧ pred i ≤ 1 := by
  refine ⟨_, baseline_spec w p hne, fun i => ?_⟩
  cases hpi : p i with
  | none => simpa [hpi] using weightedMean_mem hw hu hne
  | some v => simpa [hpi] using hu i v hpi

theorem gaussian_ok_bounds {U : Matrix (Fin R) (Fin d) ℝ} {p : ObsVec R}
    {l2 : ℝ} (hne : obsSet p ≠ ∅) (hl2 : 0 < l2) :
    ∃ pred, GaussianSubSVD.fit_predict U l2 p = Except.ok pred ∧
      ∀ i, 0 ≤ pred i ∧ pred i ≤ 1 :=
  ⟨_, gaussian_spec U p hne hl2, fun _ =>
    ⟨clamp01_nonneg _, clamp01_le_one _⟩⟩

theorem logistic_ok_bounds {U : Matrix (Fin R) (Fin d) ℝ} {p : ObsVec R}
    {l2 : ℝ} (hu : obsInUnit p) (hne : obsSet p ≠ ∅) :
    ∃ pred, LogisticSubSVD.fit_predict U l2 p = Except.ok pred ∧
      ∀ i, 0 ≤ pred i ∧ pred i ≤ 1 := by
  refine ⟨_, logistic_spec U l2 p hne, fun i => ?_⟩
  cases hpi : p i with
  | none => simpa [hpi] using ⟨(sigmoid_pos _).le, sigmoid_le_one _⟩
  | some v => simpa [hpi] using hu i v hpi

end ModelHelpers

/-- Claim C1: for every model type (WeightedAveraging baseline,
GaussianSubSVD, LogisticSubSVD) and every valid partially-observed vector
with at least one observed entry, the vector returned by `fit_predict`
reproduces the observed value at every observed index exactly; when every
index is observed, the prediction equals the input everywhere. -/
theorem claim1_pass_through {R d : ℕ} (w : Fin R → ℝ)
    (U : Matrix (Fin R) (Fin d) ℝ) {l2 : ℝ} (p : ObsVec R)
    (hne : obsSet p ≠ ∅) (hu : obsInUnit p) (hl2 : 0 < l2) :
    (∃ pred, WeightedAveraging.fit_predict w p = Except.ok pred ∧
        (∀ i v, p i = some v → pred i = v) ∧
        ((∀ i, (p i).isSome) → ∀ i, pred i = (p i).getD 0)) ∧
    (∃ pred, GaussianSubSVD.fit_predict U l2 p = Except.ok pred ∧
        (∀ i v, p i = some v → pred i = v) ∧
        ((∀ i, (p i).isSome) → ∀ i, pred i = (p i).getD 0)) ∧
    (∃ pred, LogisticSubSVD.fit_predict U l2 p = Except.ok pred ∧
        (∀ i v, p i = some v → pred i = v) ∧
        ((∀ i, (p i).isSome) → ∀ i, pred i = (p i).getD 0)) := by
  have hbase : ∀ i v, p i = some v →
      (p i).getD (WeightedAveraging.weightedMean w p) = v := fun i v hv => by
    simp [hv]
  have hgauss : ∀ i v, p i = some v →
      clamp01 ((p i).getD (∑ j, U i j * GaussianSubSVD.coef U l2 p j)) = v :=
    fun i v hv => by
      have hb := hu i v hv
      rw [hv, Option.getD_some]
      exact clamp01_of_mem hb.1 hb.2
  have hlog : ∀ i v, p i = some v →
      (p i).getD (sigmoid (∑ j, U i j * LogisticSubSVD.solve U l2 p j)) = v :=
    fun i v hv => by simp [hv]
  exact ⟨⟨_, baseline_spec w p hne, hbase, fun hall => pass_to_full hbase hall⟩,
    ⟨_, gaussian_spec U p hne hl2, hgauss, fun hall => pass_to_full hgauss hall⟩,
    ⟨_, logistic_spec U l2 p hne, hlog, fun hall => pass_to_full hlog hall⟩⟩

/-- Claim C2: for every model type and valid inputs (historical values in
the unit interval, observed entries in the unit interval, positive
weights, a non-empty observed set, positive regularization), every entry
of the predicted vector lies in `[0,1]`: the Gaussian model hard-clamps,
the logistic sigmoid is bounded by construction, and the baseline's
weighted mean of unit-interval values stays in the unit interval. -/
theorem claim2_unit_bounds {R d : ℕ} {w : Fin R → ℝ}
    {U : Matrix (Fin R) (Fin d) ℝ} {l2 : ℝ} {p : ObsVec R}
    (hw : posWeights w) (hu : obsInUnit p) (hne : obsSet p ≠ ∅)
    (hl2 : 0 < l2) :
    (∃ pred, WeightedAveraging.fit_predict w p = Except.ok pred ∧
        ∀ i, 0 ≤ pred i ∧ pred i ≤ 1) ∧
    (∃ pred, GaussianSubSVD.fit_predict U l2 p = Except.ok pred ∧
        ∀ i, 0 ≤ pred i ∧ pred i ≤ 1) ∧
    (∃ pred, LogisticSubSVD.fit_predict U l2 p = Except.ok pred ∧
        ∀ i, 0 ≤ pred i ∧ pred i ≤ 1) :=
  ⟨baseline_ok_bounds hw hu hne, gaussian_ok_bounds hne hl2,
    logistic_ok_bounds hu hne⟩

/-- Claim C3: for every model type, including the baseline, calling
`fit_predict` with a partially-observed vector whose observed set is
empty fails with the `EmptyObservationSet` error, aborting with no
partial result. -/
theorem claim3_empty_observation {R d : ℕ} (w : Fin R → ℝ)
    (U : Matrix (Fin R) (Fin d) ℝ) (l2 : ℝ) (p : ObsVec R)
    (h : obsSet p = ∅) :
    WeightedAveraging.fit_predict w p =
        Except.error PredikonError.emptyObservationSet ∧
    GaussianSubSVD.fit_predict U l2 p =
        Except.error PredikonError.emptyObservationSet ∧
    LogisticSubSVD.fit_predict U l2 p =
        Except.error PredikonError.emptyObservationSet := by
  refine ⟨?_, ?_, ?_⟩
  · rw [WeightedAveraging.fit_predict, if_pos h]
  · rw [GaussianSubSVD.fit_predict, if_pos h]
  · rw [LogisticSubSVD.fit_predict, if_pos h]

/-- Claim C8: unobserved entries are marked by an option per entry (the
observed-index set is exactly the set of indices whose option holds a
value), and on valid inputs every model returns a total predicted vector
whose entries are genuine reals in `[0,1]` — no undefined numeric value
is ever handed back as a valid result. -/
theorem claim8_no_undefined {R d : ℕ} {w : Fin R → ℝ}
    {U : Matrix (Fin R) (Fin d) ℝ} {l2 : ℝ} {p : ObsVec R}
    (hw : posWeights w) (hu : obsInUnit p) (hne : obsSet p ≠ ∅)
    (hl2 : 0 < l2) :
    (∀ i, i ∈ obsSet p ↔ (p i).isSome) ∧
    (∃ pred, WeightedAveraging.fit_predict w p = Except.ok pred ∧
        ∀ i, 0 ≤ pred i ∧ pred i ≤ 1) ∧
    (∃ pred, GaussianSubSVD.fit_predict U l2 p = Except.ok pred ∧
        ∀ i, 0 ≤ pred i ∧ pred i ≤ 1) ∧
    (∃ pred, LogisticSubSVD.fit_predict U l2 p = Except.ok pred ∧
        ∀ i, 0 ≤ pred i ∧ pred i ≤ 1) :=
  ⟨fun _ => mem_obsSet, baseline_ok_bounds hw hu hne,
    gaussian_ok_bounds hne hl2, logistic_ok_bounds hu hne⟩

theorem oneP_ne : obsSet oneP ≠ ∅ :=
  Finset.ne_empty_of_mem (mem_obsSet (i := 0).mpr rfl)

theorem oneP_unit : obsInUnit oneP := by
  intro i v hv
  have h : (1 / 2 : ℝ) = v := Option.some.inj hv
  constructor <;> rw [← h] <;> norm_num

theorem oneW_pos : posWeights oneW := fun _ => one_pos

theorem noneP_empty : obsSet noneP = ∅ := by decide

/-- Concrete instantiation of the pass-through property: one region, a
rank-one embedding, observed value `1/2`, regularization `1`. -/
theorem claim1_witness :
    obsSet oneP ≠ ∅ ∧ obsInUnit oneP ∧ (0 : ℝ) < 1 ∧
    ((∃ pred, WeightedAveraging.fit_predict oneW oneP = Except.ok pred ∧
        (∀ i v, oneP i = some v → pred i = v) ∧
        ((∀ i, (oneP i).isSome) → ∀ i, pred i = (oneP i).getD 0)) ∧
     (∃ pred, GaussianSubSVD.fit_predict oneU 1 oneP = Except.ok pred ∧
        (∀ i v, oneP i = some v → pred i = v) ∧
        ((∀ i, (oneP i).isSome) → ∀ i, pred i = (oneP i).getD 0)) ∧
     (∃ pred, LogisticSubSVD.fit_predict oneU 1 oneP = Except.ok pred ∧
        (∀ i v, oneP i = some v → pred i = v) ∧
        ((∀ i, (oneP i).isSome) → ∀ i, pred i = (oneP i).getD 0))) :=
  ⟨oneP_ne, oneP_unit, one_pos,
    claim1_pass_through oneW oneU oneP oneP_ne oneP_unit one_pos⟩

/-- Concrete instantiation of the unit-interval bound property. -/
theorem claim2_witness :
    posWeights oneW ∧ obsInUnit oneP ∧ obsSet oneP ≠ ∅ ∧ (0 : ℝ) < 1 ∧
    ((∃ pred, WeightedAveraging.fit_predict oneW oneP = Except.ok pred ∧
        ∀ i, 0 ≤ pred i ∧ pred i ≤ 1) ∧
     (∃ pred, GaussianSubSVD.fit_predict oneU 1 oneP = Except.ok pred ∧
        ∀ i, 0 ≤ pred i ∧ pred i ≤ 1) ∧
     (∃ pred, LogisticSubSVD.fit_predict oneU 1 oneP = Except.ok pred ∧
        ∀ i, 0 ≤ pred i ∧ pred i ≤ 1)) :=
  ⟨oneW_pos, oneP_unit, oneP_ne, one_pos,
    claim2_unit_bounds oneW_pos oneP_unit oneP_ne one_pos⟩

/-- Concrete instantiation of the degenerate-failure property on the
everywhere-unobserved vector. -/
theorem claim3_witness :
    obsSet noneP = ∅ ∧
    WeightedAveraging.fit_predict oneW noneP =
        Except.error PredikonError.emptyObservationSet ∧
    GaussianSubSVD.fit_predict oneU 1 noneP =
        Except.error PredikonError.emptyObservationSet ∧
    LogisticSubSVD.fit_predict oneU 1 noneP =
        Except.error PredikonError.emptyObservationSet :=
  ⟨noneP_empty, claim3_empty_observation oneW oneU 1 noneP noneP_empty⟩

/-- Concrete instantiation of the no-undefined-outputs property. -/
theorem claim8_witness :
    posWeights oneW ∧ obsInUnit oneP ∧ obsSet oneP ≠ ∅ ∧ (0 : ℝ) < 1 ∧
    ((∀ i, i ∈ obsSet oneP ↔ (oneP i).isSome) ∧
     (∃ pred, WeightedAveraging.fit_predict oneW oneP = Except.ok pred ∧
        ∀ i, 0 ≤ pred i ∧ pred i ≤ 1) ∧
     (∃ pred, GaussianSubSVD.fit_predict oneU 1 oneP = Except.ok pred ∧
        ∀ i, 0 ≤ pred i ∧ pred i ≤ 1) ∧
     (∃ pred, LogisticSubSVD.fit_predict oneU 1 oneP = Except.ok pred ∧
        ∀ i, 0 ≤ pred i ∧ pred i ≤ 1)) :=
  ⟨oneW_pos, oneP_unit, oneP_ne, one_pos,
    claim8_no_undefined oneW_pos oneP_unit oneP_ne one_pos⟩

theorem obsSet_specP : obsSet specP = {0, 2} := by decide

theorem specP_ne : obsSet specP ≠ ∅ := by
  rw [obsSet_specP]
  decide

theorem specP_mean : WeightedAveraging.weightedMean specW specP = 19 / 35 := by
  rw [WeightedAveraging.weightedMean, obsSet_specP,
    Finset.sum_insert (by decide), Finset.sum_singleton,
    Finset.sum_insert (by decide), Finset.sum_singleton]
  rw [show specW 0 = 2 from rfl, show specW 2 = 5 from rfl,
    show (specP 0).getD 0 = 2 / 5 from rfl,
    show (specP 2).getD 0 = 3 / 5 from rfl]
  norm_num

theorem specP_fit : WeightedAveraging.fit_predict specW specP =
    Except.ok (fun i => (specP i).getD (19 / 35)) := by
  rw [baseline_spec specW specP specP_ne, specP_mean]

theorem specP_one : ∀ x : ℝ, (specP 1).getD x = x := fun _ => rfl

/-- Claim C4's numeric reference is false on the specified baseline: at
weights `[2,3,5]` and observations `[0.4, unobserved, 0.6]` the imputed
entry is `(2·0.4 + 5·0.6)/(2+5) = 19/35 ≈ 0.542857`, which differs from
the claimed value `0.514286` by far more than `1e-6`. -/
theorem claim4_counterexample :
    ∃ pred, WeightedAveraging.fit_predict specW specP = Except.ok pred ∧
      pred 1 = 19 / 35 ∧ ¬ |pred 1 - 0.514286| ≤ 1 / 10 ^ 6 := by
  refine ⟨_, specP_fit, specP_one _, ?_⟩
  rw [specP_one, not_le, lt_abs]
  left
  norm_num

/-- Claim C4 amended: the baseline sets every unobserved index to the
weighted mean of the observed entries and copies observed indices
unchanged; in the concrete instance with weights `[2,3,5]` and
observations `[0.4, unobserved, 0.6]` the unobserved entry equals
`(2·0.4 + 5·0.6)/(2+5)`, which is `0.542857` within `1e-6` (the spec's
decimal `0.514286` is a slip for `0.542857`). -/
theorem claim4_amended {R : ℕ} (w : Fin R → ℝ) (p : ObsVec R)
    (hne : obsSet p ≠ ∅) :
    (∃ pred, WeightedAveraging.fit_predict w p = Except.ok pred ∧
        (∀ i, p i = none → pred i = WeightedAveraging.weightedMean w p) ∧
        (∀ i v, p i = some v → pred i = v)) ∧
    (∃ pred, WeightedAveraging.fit_predict specW specP = Except.ok pred ∧
        pred 1 = (2 * (2 / 5) + 5 * (3 / 5)) / (2 + 5) ∧
        |pred 1 - 0.542857| ≤ 1 / 10 ^ 6) := by
  constructor
  · exact ⟨_, baseline_spec w p hne,
      fun i hi => by simp [hi], fun i v hv => by simp [hv]⟩
  · refine ⟨_, specP_fit, ?_, ?_⟩
    · rw [specP_one]
      norm_num
    · rw [specP_one, abs_le]
      constructor <;> norm_num

/-- Concrete instantiation of the amended baseline claim on the
one-region fixture. -/
theorem claim4_witness :
    obsSet oneP ≠ ∅ ∧
    ((∃ pred, WeightedAveraging.fit_predict oneW oneP = Except.ok pred ∧
        (∀ i, oneP i = none →
            pred i = WeightedAveraging.weightedMean oneW oneP) ∧
        (∀ i v, oneP i = some v → pred i = v)) ∧
     (∃ pred, WeightedAveraging.fit_predict specW specP = Except.ok pred ∧
        pred 1 = (2 * (2 / 5) + 5 * (3 / 5)) / (2 + 5) ∧
        |pred 1 - 0.542857| ≤ 1 / 10 ^ 6)) :=
  ⟨oneP_ne, claim4_amended oneW oneP oneP_ne⟩

/-- Claim C5: the aggregate operation is the total function
`Σ weights[i]·full[i] / Σ weights[i]`, and the notebook's expression
`1/np.sum(weights) * np.sum(weights.dot(pred))` computes exactly the same
weighted mean. -/
theorem claim5_aggregate_equiv {R : ℕ} (w pred : Fin R → ℝ) :
    aggregate pred w = notebookAggregate w pred ∧
    aggregate pred w = (∑ i, w i * pred i) / (∑ i, w i) := by
  refine ⟨?_, rfl⟩
  rw [aggregate, notebookAggregate, one_div_mul_eq_div]

/-- Claim C7: with the embedding, observed set, and observed values held
fixed, the squared norm (hence the norm) of the closed-form ridge
coefficient vector is non-increasing in the regularization strength:
for `0 < l2 ≤ l2'` the coefficients at `l2'` are no larger in norm than
those at `l2`. -/
theorem claim7_reg_monotonicity {R d : ℕ} (U : Matrix (Fin R) (Fin d) ℝ)
    (p : ObsVec R) {l2 l2' : ℝ} (hl2 : 0 < l2) (hle : l2 ≤ l2') :
    (∑ j, GaussianSubSVD.coef U l2' p j ^ 2) ≤
        (∑ j, GaussianSubSVD.coef U l2 p j ^ 2) ∧
      Real.sqrt (∑ j, GaussianSubSVD.coef U l2' p j ^ 2) ≤
        Real.sqrt (∑ j, GaussianSubSVD.coef U l2 p j ^ 2) :=
  have h := coef_sq_mono U p hl2 hle
  ⟨h, Real.sqrt_le_sqrt h⟩

/-- Concrete instantiation of regularization monotonicity at `l2 = 1`,
`l2' = 2` on the one-region fixture. -/
theorem claim7_witness :
    (0 : ℝ) < 1 ∧ (1 : ℝ) ≤ 2 ∧
    ((∑ j, GaussianSubSVD.coef oneU 2 oneP j ^ 2) ≤
        (∑ j, GaussianSubSVD.coef oneU 1 oneP j ^ 2) ∧
      Real.sqrt (∑ j, GaussianSubSVD.coef oneU 2 oneP j ^ 2) ≤
        Real.sqrt (∑ j, GaussianSubSVD.coef oneU 1 oneP j ^ 2)) :=
  ⟨one_pos, by norm_num,
    claim7_reg_monotonicity oneU oneP one_pos (by norm_num)⟩

/-- Claim C9: the whole computation is a deterministic function of its
inputs — identical weights, embedding, regularization, and
partially-observed vector yield identical coefficients and predictions
for all three models, and the logistic solve starts from the fixed zero
vector. -/
theorem claim9_determinism {R d : ℕ} {w1 w2 : Fin R → ℝ}
    {U1 U2 : Matrix (Fin R) (Fin d) ℝ} {a1 a2 : ℝ} {p1 p2 : ObsVec R}
    (hw : w1 = w2) (hU : U1 = U2) (ha : a1 = a2) (hp : p1 = p2) :
    WeightedAveraging.fit_predict w1 p1 = WeightedAveraging.fit_predict w2 p2 ∧
    GaussianSubSVD.coef U1 a1 p1 = GaussianSubSVD.coef U2 a2 p2 ∧
    GaussianSubSVD.fit_predict U1 a1 p1 = GaussianSubSVD.fit_predict U2 a2 p2 ∧
    LogisticSubSVD.solve U1 a1 p1 = LogisticSubSVD.solve U2 a2 p2 ∧
    LogisticSubSVD.fit_predict U1 a1 p1 = LogisticSubSVD.fit_predict U2 a2 p2 ∧
    LogisticSubSVD.solve U1 a1 p1 =
      LogisticSubSVD.iterate U1 p1 a1 LogisticSubSVD.solverCap (fun _ => 0) := by
  subst hw hU ha hp
  exact ⟨rfl, rfl, rfl, rfl, rfl, rfl⟩

/-- Concrete instantiation of determinism on the one-region fixture. -/
theorem claim9_witness :
    WeightedAveraging.fit_predict oneW oneP =
        WeightedAveraging.fit_predict oneW oneP ∧
    GaussianSubSVD.coef oneU 1 oneP = GaussianSubSVD.coef oneU 1 oneP ∧
    GaussianSubSVD.fit_predict oneU 1 oneP =
        GaussianSubSVD.fit_predict oneU 1 oneP ∧
    LogisticSubSVD.solve oneU 1 oneP = LogisticSubSVD.solve oneU 1 oneP ∧
    LogisticSubSVD.fit_predict oneU 1 oneP =
        LogisticSubSVD.fit_predict oneU 1 oneP ∧
    LogisticSubSVD.solve oneU 1 oneP =
      LogisticSubSVD.iterate oneU oneP 1 LogisticSubSVD.solverCap
        (fun _ => 0) :=
  claim9_determinism rfl rfl rfl rfl

/-- Claim C10: in the example pipeline the observed set `inds[:n]` with
`n = ceil(217·0.1) = 22` has exactly 22 distinct indices for any
permutation `inds`, the partial vector `ynew` is observed exactly there,
so its observed set is non-empty and no model's `fit_predict` can return
the `EmptyObservationSet` error on it. -/
theorem claim10_example_observed (inds : Equiv.Perm (Fin 217))
    (y : Fin 217 → ℝ) :
    ExamplePipeline.exN = 22 ∧
    (ExamplePipeline.exObs inds).card = 22 ∧
    obsSet (ExamplePipeline.ynew inds y) = ExamplePipeline.exObs inds ∧
    obsSet (ExamplePipeline.ynew inds y) ≠ ∅ ∧
    (∀ w : Fin 217 → ℝ,
        WeightedAveraging.fit_predict w (ExamplePipeline.ynew inds y) ≠
          Except.error PredikonError.emptyObservationSet) ∧
    (∀ (d : ℕ) (U : Matrix (Fin 217) (Fin d) ℝ) (l2 : ℝ),
        GaussianSubSVD.fit_predict U l2 (ExamplePipeline.ynew inds y) ≠
          Except.error PredikonError.emptyObservationSet) ∧
    (∀ (d : ℕ) (U : Matrix (Fin 217) (Fin d) ℝ) (l2 : ℝ),
        LogisticSubSVD.fit_predict U l2 (ExamplePipeline.ynew inds y) ≠
          Except.error PredikonError.emptyObservationSet) := by
  have hN : ExamplePipeline.exN = 22 := by
    rw [ExamplePipeline.exN]
    rw [show ((ExamplePipeline.exR : ℚ)) * (1 / 10) = 217 / 10 by
      norm_num [ExamplePipeline.exR]]
    rw [Nat.ceil_eq_iff (by norm_num)]
    norm_num
  have hnd : (((List.finRange 217).map fun i => inds i).take
      ExamplePipeline.exN).Nodup :=
    ((List.nodup_finRange 217).map inds.injective).sublist
      (List.take_sublist _ _)
  have hcard : (ExamplePipeline.exObs inds).card = 22 := by
    rw [ExamplePipeline.exObs, List.toFinset_card_of_nodup hnd,
      List.length_take, List.length_map, List.length_finRange, hN]
    exact inf_eq_left.mpr (by norm_num)
  have hobs : obsSet (ExamplePipeline.ynew inds y) =
      ExamplePipeline.exObs inds := by
    ext i
    simp only [mem_obsSet, ExamplePipeline.ynew]
    by_cases h : i ∈ ExamplePipeline.exObs inds <;> simp [h]
  have hne : obsSet (ExamplePipeline.ynew inds y) ≠ ∅ := by
    rw [hobs]
    intro h
    rw [h] at hcard
    simp at hcard
  refine ⟨hN, hcard, hobs, hne, fun w => ?_, fun d U l2 => ?_, fun d U l2 => ?_⟩
  · rw [WeightedAveraging.fit_predict, if_neg hne]
    exact fun h => Except.noConfusion h
  · rw [GaussianSubSVD.fit_predict, if_neg hne]
    by_cases hdet :
        (ridgeMat U (obsSet (ExamplePipeline.ynew inds y)) l2).det = 0
    · rw [if_pos hdet]
      intro h
      injection h with h2
      exact PredikonError.noConfusion h2
    · rw [if_neg hdet]
      exact fun h => Except.noConfusion h
  · rw [LogisticSubSVD.fit_predict, if_neg hne]
    exact fun h => Except.noConfusion h
